/-
  Verification development for the ME_CORE marker-detection backend.

  This file gives a shallow embedding, in Lean 4, of the core of the
  marker-detection pipeline:

  * the time-series scoring aggregator
    (backend/detect/scoring/SCR_time_series_aggregator.py and
     backend/detect/scoring/SCR_score_models.py),
  * the activation rules engine
    (backend/services/activation_rules_engine.py),
  * the marker service's confidence computation
    (backend/services/marker_service.py),
  * the orchestration service's marker merge and phase sequencing
    (backend/services/orchestration_service.py),
  * the analysis-context data model (backend/models/analysis_context.py).

  Modelling conventions:
  * Python floats are modelled as `ℚ` (the claims under study are about
    exact arithmetic relations, not float rounding); `math.exp` is an
    abstract parameter `pexp : ℚ → ℚ` wherever it is used.
  * Python exceptions are modelled with `Except PyErr`; an attribute
    access on a pydantic model that declares no such field is an
    `AttributeError`, division by zero a `ZeroDivisionError`, `max()` of
    an empty sequence a `ValueError`, a missing dict key a `KeyError`.
  * A Python `dict` carrying a fixed set of optional keys is modelled as
    a structure with `Option` fields (`none` = key absent); the falsy
    values `None`/`{}`/`[]`/`""` are modelled where the code tests
    truthiness.
  * Wall-clock time (`datetime.utcnow().timestamp()`) is an explicit
    `now : ℚ` parameter.
-/
import Mathlib

namespace MECore

/-- Python exception kinds that the embedded code can raise. -/
inductive PyErr where
  | attributeError
  | typeError
  | nameError
  | valueError
  | zeroDivisionError
  | keyError
  deriving DecidableEq, Repr

/-- Python `a / b` on numbers: raises `ZeroDivisionError` on a zero divisor. -/
def pyDiv (a b : ℚ) : Except PyErr ℚ :=
  if b = 0 then .error .zeroDivisionError else .ok (a / b)

/-- Python `str.upper()` (ASCII case mapping, which is all the embedded
string data exercises), implemented structurally on the character
list. -/
def pyUpper (s : String) : String := ⟨s.data.map Char.toUpper⟩

/-- Python `str.lower()` (ASCII case mapping), implemented structurally
on the character list. -/
def pyLower (s : String) : String := ⟨s.data.map Char.toLower⟩

/-- Python `needle in haystack` on strings (substring containment). -/
def pyIn (needle haystack : String) : Bool :=
  let n := needle.toList
  let h := haystack.toList
  (List.range (h.length + 1)).any fun i => n.isPrefixOf (h.drop i)

/-- Python `str.split()` with no argument: split on whitespace runs,
discarding empty pieces. -/
def pySplitWs (s : String) : List String :=
  (s.split Char.isWhitespace).filter (· ≠ "")

/-- Python list slice `l[i:]` (with its clamping of negative / large
indices). -/
def pySliceFrom (i : ℤ) (l : List α) : List α :=
  let n : ℤ := l.length
  let start : ℤ := if i < 0 then max 0 (n + i) else min n i
  l.drop start.toNat

/-- Python slice `l[a:b]` for non-negative bounds already clamped by the
caller (used for token windows). -/
def pySlice (l : List α) (a b : ℕ) : List α :=
  (l.drop a).take (b - a)

/-- `max(...)` over a list of rationals; `ValueError` on an empty
sequence, as in Python. -/
def pyMax (l : List ℚ) : Except PyErr ℚ :=
  match l with
  | [] => .error .valueError
  | x :: xs => .ok (xs.foldl max x)

/-! ## Scoring engine
    From backend/detect/scoring/SCR_score_models.py and
    backend/detect/scoring/SCR_time_series_aggregator.py. -/

/-- A scoring event: `{timestamp: epoch-seconds, weight or value: float}`.
`aggregate_events` reads `e.get("weight", e.get("value", 0.0))`. -/
structure Event where
  timestamp : ℚ
  weight : Option ℚ := none
  value : Option ℚ := none
  deriving DecidableEq, Repr

/-- `e.get("weight", e.get("value", 0.0))`. -/
def Event.weightOf (e : Event) : ℚ :=
  e.weight.getD (e.value.getD 0)

/-- A `window` block: `{messages?: int, seconds?: float}`. -/
structure WindowCfg where
  messages : Option ℤ := none
  seconds : Option ℚ := none
  deriving DecidableEq, Repr

/-- A `scoring` block (also the shape of the top level of
`default_config.json`): `{formula?, threshold?, base?, weight?, k?,
decay?, max_score?}`. -/
structure ScoringCfg where
  formula : Option String := none
  threshold : Option ℚ := none
  base : Option ℚ := none
  weight : Option ℚ := none
  k : Option ℚ := none
  decay : Option ℚ := none
  max_score : Option ℚ := none
  deriving DecidableEq, Repr

/-- The global default configuration loaded from `default_config.json`:
a `windows` table keyed by marker-type class plus top-level scoring
defaults.  The JSON data file is configuration, not code, so the
development is parametric in it. -/
structure DefaultConfig where
  windows : List (String × WindowCfg) := []
  scoring : ScoringCfg := {}
  deriving DecidableEq, Repr

/-- The marker dictionary consumed by `aggregate_events`: it reads
`marker.get("id", "")`, `marker.get("window", {})` and
`marker.get("scoring", {})`. -/
structure AggMarker where
  id : String := ""
  window : WindowCfg := {}
  scoring : ScoringCfg := {}
  deriving DecidableEq, Repr

/-- Result dict `{"raw_score": ..., "score": ...}` of `aggregate_events`. -/
structure AggResult where
  raw_score : ℚ
  score : ℚ
  deriving DecidableEq, Repr

/-- Marker-type classification in `aggregate_events`: ids starting with
`MM` map to `MEMA`, otherwise the first character is looked up in
`{"A": "ATO", "S": "SEM", "C": "CLU"}` with default `""`. -/
def markerTypeOf (id : String) : String :=
  if id.startsWith "MM" then "MEMA"
  else match id.toList with
    | [] => ""
    | c :: _ =>
      if c = 'A' then "ATO" else if c = 'S' then "SEM" else if c = 'C' then "CLU" else ""

/-- Effective window defaults for a marker id:
`DEFAULT_CONFIG.get("windows", {}).get(marker_type, {})`. -/
def windowDefaultsFor (cfg : DefaultConfig) (id : String) : WindowCfg :=
  ((cfg.windows.lookup (markerTypeOf id)).getD {})

/-- `window.get("messages", defaults.get("messages"))`. -/
def effMessages (cfg : DefaultConfig) (m : AggMarker) : Option ℤ :=
  m.window.messages <|> (windowDefaultsFor cfg m.id).messages

/-- `window.get("seconds", defaults.get("seconds"))`. -/
def effSeconds (cfg : DefaultConfig) (m : AggMarker) : Option ℚ :=
  m.window.seconds <|> (windowDefaultsFor cfg m.id).seconds

/-- The window filter of `aggregate_events`: `filtered = events;
if messages is not None: filtered = filtered[-messages:];
if seconds is not None: filtered = [e for e in filtered if
e["timestamp"] >= now - seconds]`. -/
def windowFilter (messages : Option ℤ) (seconds : Option ℚ) (now : ℚ)
    (events : List Event) : List Event :=
  let f1 := match messages with
    | some n => pySliceFrom (-n) events
    | none => events
  match seconds with
  | some s => f1.filter fun e => now - s ≤ e.timestamp
  | none => f1

/-- `{**DEFAULT_CONFIG, **marker.get("scoring", {})}` restricted to the
scoring keys: marker-local values override the global defaults. -/
def mergedScoring (cfg : DefaultConfig) (m : AggMarker) : ScoringCfg where
  formula := m.scoring.formula <|> cfg.scoring.formula
  threshold := m.scoring.threshold <|> cfg.scoring.threshold
  base := m.scoring.base <|> cfg.scoring.base
  weight := m.scoring.weight <|> cfg.scoring.weight
  k := m.scoring.k <|> cfg.scoring.k
  decay := m.scoring.decay <|> cfg.scoring.decay
  max_score := m.scoring.max_score <|> cfg.scoring.max_score

/-- `apply_formula(raw, scoring)` from SCR_score_models.py.  `logistic`
receives `scoring.get("k")`, every other formula
`scoring.get("threshold", 0)`; a `None` parameter becomes `0`; an
unknown formula name falls back to `linear`.  `pexp` stands for
`math.exp`. -/
def applyFormula (pexp : ℚ → ℚ) (raw : ℚ) (scoring : ScoringCfg) : ℚ :=
  let name := scoring.formula.getD "linear"
  if name = "logistic" then
    let k := scoring.k.getD 0
    1 / (1 + pexp (-k * raw))
  else if name = "step" then
    let t := scoring.threshold.getD 0
    if t ≤ raw then 1 else 0
  else
    raw

/-- `aggregate_events(marker, events)` from
SCR_time_series_aggregator.py, with the wall clock `now` and `math.exp`
made explicit.  A zero merged threshold raises `ZeroDivisionError` at
the `total_weight / threshold` division; a truthy `decay` with an empty
filtered window raises `ValueError` at `max(e["timestamp"] ...)`. -/
def aggregate_events (cfg : DefaultConfig) (pexp : ℚ → ℚ) (now : ℚ)
    (marker : AggMarker) (events : List Event) : Except PyErr AggResult :=
  if events = [] then .ok ⟨0, 0⟩ else do
  let filtered := windowFilter (effMessages cfg marker) (effSeconds cfg marker) now events
  let total_weight := (filtered.map Event.weightOf).sum
  let scoring := mergedScoring cfg marker
  let threshold := scoring.threshold.getD 1
  let base := scoring.base.getD 1
  let weight_factor := scoring.weight.getD 1
  let q ← pyDiv total_weight threshold
  let raw_score := q * base * weight_factor
  let score := applyFormula pexp raw_score scoring
  let score ← match scoring.decay with
    | some d =>
      if d = 0 then .ok score else do
        let last_ts ← pyMax (filtered.map Event.timestamp)
        let hours_since := (now - last_ts) / 3600
        .ok (score * pexp (-d * hours_since))
    | none => .ok score
  let score := match scoring.max_score with
    | some ms => min score ms
    | none => score
  .ok ⟨raw_score, score⟩

/-- The merged threshold actually divided by:
`scoring.get("threshold", 1.0)` over the merged configuration. -/
def mergedThreshold (cfg : DefaultConfig) (m : AggMarker) : ℚ :=
  (mergedScoring cfg m).threshold.getD 1

/-- The filtered event list of `aggregate_events` (steps 2–3). -/
def filteredEvents (cfg : DefaultConfig) (now : ℚ) (m : AggMarker)
    (events : List Event) : List Event :=
  windowFilter (effMessages cfg m) (effSeconds cfg m) now events

/-- `if decay:` is false — decay absent or (int/float) zero. -/
def decayFalsy (s : ScoringCfg) : Prop :=
  s.decay = none ∨ s.decay = some 0

/-! Spec-side restatement of the window filter, following the spec's
words: "if `messages` set, keep only the last N events (by list order,
not re-sorted)", "if `seconds` set, additionally drop events whose
timestamp is older than `now - seconds`", with the messages cut applied
first. -/

/-- Spec wording: keep only the last N events, by list order. -/
def messagesCutSpec (messages : Option ℤ) (events : List Event) : List Event :=
  match messages with
  | some n => pySliceFrom (-n) events
  | none => events

/-- Spec wording: drop events whose timestamp is older than
`now - seconds`. -/
def secondsCutSpec (seconds : Option ℚ) (now : ℚ) (events : List Event) : List Event :=
  match seconds with
  | some s => events.filter fun e => now - s ≤ e.timestamp
  | none => events

/-- The three-event example of the spec: events at `now-4000s`,
`now-30s`, `now-10s` (each of weight 1) with `now = 10000`. -/
def exEvents : List Event :=
  [⟨6000, some 1, none⟩, ⟨9970, some 1, none⟩, ⟨9990, some 1, none⟩]

/-- The example marker: `window = {messages: 2, seconds: 60}` and an
explicit linear scoring block with threshold 2 (as in the repository's
aggregator test). -/
def exMarker : AggMarker where
  id := "A_TEST"
  window := ⟨some 2, some 60⟩
  scoring :=
    { formula := some "linear", threshold := some 2, base := some 1
      weight := some 1, decay := some 1, max_score := some 10 }

/-- C4.  The window filters compose in a fixed order — the messages cut
(last N events by list order) first, then the seconds cut on its result
— and on the spec's three-event example with `window = {messages: 2,
seconds: 60}` exactly the last two events survive (so, with threshold 2
and unit weights, `raw_score = 1`), for every global default
configuration. -/
theorem claim_C4 :
    (∀ (messages : Option ℤ) (seconds : Option ℚ) (now : ℚ) (events : List Event),
      windowFilter messages seconds now events
        = secondsCutSpec seconds now (messagesCutSpec messages events))
    ∧ (∀ cfg : DefaultConfig,
        filteredEvents cfg 10000 exMarker exEvents
          = [⟨9970, some 1, none⟩, ⟨9990, some 1, none⟩])
    ∧ (∀ (cfg : DefaultConfig) (pexp : ℚ → ℚ),
        (aggregate_events cfg pexp 10000 exMarker exEvents).map AggResult.raw_score
          = .ok 1) := by
  refine ⟨?_, ?_, ?_⟩
  · intro messages seconds now events
    cases messages <;> cases seconds <;>
      simp [windowFilter, secondsCutSpec, messagesCutSpec]
  · intro cfg
    simp [filteredEvents, effMessages, effSeconds, exMarker, windowFilter,
      exEvents, pySliceFrom]
    norm_num
  · intro cfg pexp
    simp [aggregate_events, exEvents, exMarker, filteredEvents, effMessages,
      effSeconds, windowFilter, pySliceFrom, mergedScoring, pyDiv, pyMax,
      Event.weightOf, applyFormula]
    norm_num [Except.map, Bind.bind, Except.bind, Event.weightOf]

/-- A marker whose seconds window excludes every event and whose merged
scoring block configures a decay: `aggregate_events` then evaluates
`max()` over an empty sequence. -/
def c5CtrMarker : AggMarker where
  id := "A_X"
  window := { seconds := some 10 }
  scoring := { threshold := some 1, decay := some 1 }

/-- C5, counterexample to the claim as stated: with a non-zero merged
threshold and a non-empty event list, `aggregate_events` does not return
a `raw_score` at all — the decay pass raises `ValueError` on `max()` of
the empty filtered window (event at `now-100` with a 10-second window),
instead of returning `raw_score = (0/1)·1·1 = 0`. -/
theorem claim_C5_counterexample :
    mergedThreshold {} c5CtrMarker ≠ 0
    ∧ [(⟨900, some 1, none⟩ : Event)] ≠ ([] : List Event)
    ∧ aggregate_events {} (fun _ => 1) 1000 c5CtrMarker [⟨900, some 1, none⟩]
        = .error .valueError := by
  refine ⟨by norm_num [mergedThreshold, mergedScoring, c5CtrMarker], by simp, ?_⟩
  simp [aggregate_events, c5CtrMarker, filteredEvents, effMessages, effSeconds,
    windowFilter, windowDefaultsFor, markerTypeOf, pySliceFrom, mergedScoring,
    pyDiv, pyMax, Event.weightOf, applyFormula]
  norm_num [Except.map, Bind.bind, Except.bind]

/-- C5, amended.  For every non-empty event list: a merged threshold of
zero makes `aggregate_events` surface a `ZeroDivisionError` to the
caller rather than silently producing a score; a non-zero threshold
yields `raw_score = (total_weight / threshold) · base · weight_factor`,
provided the window filter keeps at least one event or no (non-zero)
decay is configured — otherwise the decay pass raises `ValueError` on an
empty window. -/
theorem claim_C5_amended (cfg : DefaultConfig) (pexp : ℚ → ℚ) (now : ℚ)
    (m : AggMarker) (events : List Event) (hne : events ≠ []) :
    (mergedThreshold cfg m = 0 →
      aggregate_events cfg pexp now m events = .error .zeroDivisionError)
    ∧ (mergedThreshold cfg m ≠ 0 →
      (filteredEvents cfg now m events ≠ [] ∨ decayFalsy (mergedScoring cfg m)) →
      (aggregate_events cfg pexp now m events).map AggResult.raw_score
        = .ok (((filteredEvents cfg now m events).map Event.weightOf).sum
                / mergedThreshold cfg m
                * (mergedScoring cfg m).base.getD 1
                * (mergedScoring cfg m).weight.getD 1)) := by
  constructor
  · intro hz
    unfold mergedThreshold at hz
    simp only [aggregate_events, if_neg hne, filteredEvents]
    simp [pyDiv, hz, Bind.bind, Except.bind]
  · intro hz hdec
    unfold mergedThreshold at hz
    unfold aggregate_events
    rw [if_neg hne]
    simp only [pyDiv, if_neg hz, filteredEvents, mergedThreshold]
    cases hd : (mergedScoring cfg m).decay with
    | none =>
      cases hms : (mergedScoring cfg m).max_score <;>
        simp [Except.map, Bind.bind, Except.bind]
    | some d =>
      by_cases hd0 : d = 0
      · subst hd0
        cases hms : (mergedScoring cfg m).max_score <;>
          simp [Except.map, Bind.bind, Except.bind]
      · have hfe : windowFilter (effMessages cfg m) (effSeconds cfg m) now events ≠ [] := by
          rcases hdec with h | h
          · exact h
          · exfalso
            rcases h with h | h <;> rw [hd] at h <;> simp at h
            exact hd0 h
        cases hml : (windowFilter (effMessages cfg m) (effSeconds cfg m) now events).map
            Event.timestamp with
        | nil => exact absurd (by simpa using hml) hfe
        | cons x xs =>
          simp only [pyMax, hml]
          simp [hd, if_neg hd0]
          cases hms : (mergedScoring cfg m).max_score <;>
            simp [Except.map, Bind.bind, Except.bind]

/-- Witness for `claim_C5_amended` at the concrete example marker and
events. -/
theorem claim_C5_amended_witness :
    exEvents ≠ []
    ∧ ((mergedThreshold {} exMarker = 0 →
        aggregate_events {} (fun _ => 1) 10000 exMarker exEvents
          = .error .zeroDivisionError)
      ∧ (mergedThreshold {} exMarker ≠ 0 →
        (filteredEvents {} 10000 exMarker exEvents ≠ []
          ∨ decayFalsy (mergedScoring {} exMarker)) →
        (aggregate_events {} (fun _ => 1) 10000 exMarker exEvents).map
            AggResult.raw_score
          = .ok (((filteredEvents {} 10000 exMarker exEvents).map
                    Event.weightOf).sum
                  / mergedThreshold {} exMarker
                  * (mergedScoring {} exMarker).base.getD 1
                  * (mergedScoring {} exMarker).weight.getD 1))) :=
  ⟨by simp [exEvents],
   claim_C5_amended {} (fun _ => 1) 10000 exMarker exEvents (by simp [exEvents])⟩

/-! ## Data model: markers, detected markers and the analysis context
    From backend/models/marker.py and
    backend/models/analysis_context.py. -/

/-- A Python `Union[str, List[str]]` value (marker `pattern`,
`frame.signal`). -/
inductive StrOrList where
  | str (s : String)
  | list (l : List String)
  deriving DecidableEq, Repr

/-- `x if isinstance(x, list) else [x]` — the normalisation applied to
`pattern` and `frame.signal` before iterating. -/
def StrOrList.toListNorm : StrOrList → List String
  | .str s => [s]
  | .list l => l

/-- Python truthiness of the underlying value (`""` and `[]` are
falsy). -/
def StrOrList.truthy : StrOrList → Bool
  | .str s => s ≠ ""
  | .list l => l ≠ []

/-- Truthiness of an optional `Union[str, List[str], None]` field. -/
def optTruthy : Option StrOrList → Bool
  | none => false
  | some x => x.truthy

/-- `Frame` from backend/models/marker.py; only `signal` is consumed by
the embedded code, the other components are descriptive. -/
structure Frame where
  signal : StrOrList
  concept : String := ""
  pragmatics : String := ""
  narrative : String := ""
  deriving DecidableEq, Repr

/-- One activation-rule configuration dict, restricted to the keys the
engine reads.  `none` models an absent key. -/
structure ActivationFields where
  type : Option String := none
  count : Option ℤ := none
  window : Option ℤ := none
  strict_order : Option Bool := none
  alignment : Option String := none
  min_confidence : Option ℚ := none
  max_distance : Option ℤ := none
  negation_window : Option ℤ := none
  allow_negation : Option Bool := none
  pattern : Option String := none
  operator : Option String := none
  deriving DecidableEq, Repr

/-- A marker's `activation` dict: the flat rule keys plus the `rules`
list of a COMPOSITE rule.  Sub-rule dicts are modelled flat (one level
of nesting, which is what marker data uses); `marker.activation = none`
models a falsy (`None` or `{}`) activation, `some cfg` a non-empty
dict. -/
structure ActivationCfg extends ActivationFields where
  rules : List ActivationFields := []
  deriving DecidableEq, Repr

/-- `Marker` from backend/models/marker.py (the fields the embedded
services consume; `scoring`/`tags`/`detect_class` are carried opaquely
by the code and not modelled). -/
structure Marker where
  id : String
  frame : Frame := ⟨.list [], "", "", ""⟩
  examples : List String := []
  pattern : Option StrOrList := none
  composed_of : Option (List String) := none
  activation : Option ActivationCfg := none
  deriving DecidableEq, Repr

/-- A detected-marker dict as produced by `initial_scan` /
`contextual_rescan` and consumed by `_merge_markers` and
`_find_component_positions`.  `marker_id` is present in every dict the
system builds; `confidence` is read with `.get('confidence', 0.5)`,
`examples_matched` with `.get("examples_matched", [])`. -/
structure DetectedEntry where
  marker_id : String
  confidence : Option ℚ := none
  detection_phase : Option String := none
  examples_matched : List String := []
  confidence_updated : Bool := false
  contextual_boost : Option ℚ := none
  deriving DecidableEq, Repr

/-- `AnalysisContext` from backend/models/analysis_context.py.  The
pydantic model declares `text`, `schema_id`, `session_id`, `tokens`,
`sentences`, `pos_tags`, `named_entities`, `dependency_parse`,
`embeddings`, `detected_markers`, `confidence_scores` and `metadata`;
the untyped `metadata` dict is modelled by the individual keys the
orchestration code reads and writes.  The model declares NO
`request_id` and NO `sentiment_scores` field, although other modules
access those attributes — see `AnalysisContext.getRequestId` and
`AnalysisContext.getSentimentScores`. -/
structure AnalysisContext where
  text : String := ""
  schema_id : String := ""
  session_id : Option String := none
  tokens : Option (List String) := none
  sentences : Option (List String) := none
  detected_markers : List DetectedEntry := []
  nlp_skipped : Bool := false
  phase1_error : Option String := none
  phase2_error : Option String := none
  phase3_error : Option String := none
  phase1_marker_count : Option ℕ := none
  phase3_markers_added : Option ℤ := none
  deriving DecidableEq, Repr

/-- `context.request_id`: the pydantic model in
backend/models/analysis_context.py declares no `request_id` field, so
the attribute read raises `AttributeError` (pydantic models reject
unknown attributes). -/
def AnalysisContext.getRequestId (_ : AnalysisContext) : Except PyErr String :=
  .error .attributeError

/-- `context.sentiment_scores`: likewise absent from the model, the
read raises `AttributeError`.  The return type `Empty` records that no
value can ever be produced. -/
def AnalysisContext.getSentimentScores (_ : AnalysisContext) : Except PyErr Empty :=
  .error .attributeError

/-- Truthiness of `context.tokens` (`None` and `[]` are falsy). -/
def AnalysisContext.tokensTruthy (c : AnalysisContext) : Bool :=
  match c.tokens with
  | some (_ :: _) => true
  | _ => false

/-- `context.tokens` as a list (only used on truthy token fields). -/
def AnalysisContext.tokensList (c : AnalysisContext) : List String :=
  c.tokens.getD []

/-! ## Activation rules engine
    From backend/services/activation_rules_engine.py. -/

/-- The dict a rule handler returns: `activated`, `confidence`,
`components`, and — for the NLP-aware handlers — an explicit
`nlp_enhanced` key (`none` models a dict without the key; the `details`
diagnostics are not modelled). -/
structure HandlerRes where
  activated : Bool
  confidence : ℚ
  components : List String
  nlp_enhanced : Option Bool := none
  deriving DecidableEq, Repr

/-- The activation outcome assembled by `check_activation`
(`details` diagnostics omitted). -/
structure Outcome where
  activated : Bool
  confidence : ℚ
  components : List String
  rule_type : Option String := none
  nlp_enhanced : Bool := false
  deriving DecidableEq, Repr

/-- Iterating `marker.composed_of`: a `None` value raises `TypeError`
(`'NoneType' object is not iterable`), a list iterates. -/
def composedList (m : Marker) : Except PyErr (List String) :=
  match m.composed_of with
  | some l => .ok l
  | none => .error .typeError

/-- Truthiness test `not marker.composed_of`. -/
def composedFalsy : Option (List String) → Bool
  | some (_ :: _) => false
  | _ => true

/-- `_check_all_rule`: all components must be detected; confidence 0.9
when activated, else 0.0. -/
def allRule (m : Marker) (_ctx : AnalysisContext) (ids : List String) :
    Except PyErr HandlerRes := do
  let comps ← composedList m
  let found := comps.filter (· ∈ ids)
  let activated := decide (found.length = comps.length)
  .ok { activated, confidence := if activated then 9/10 else 0, components := found }

/-- `_check_any_rule`: at least one component; confidence
`0.5 + 0.4·found/total` when activated.  (The division is only reached
with a truthy, hence non-empty, `composed_of`.) -/
def anyRule (m : Marker) (_ctx : AnalysisContext) (ids : List String) :
    Except PyErr HandlerRes := do
  let comps ← composedList m
  let found := comps.filter (· ∈ ids)
  let activated := decide (0 < found.length)
  let confidence : ℚ :=
    if activated then 1/2 + (2/5) * (found.length : ℚ) / (comps.length : ℚ) else 0
  .ok { activated, confidence, components := found }

/-- `_check_any_n_rule`: at least `count` (default 2) components;
confidence `min(1, 0.7 + 0.3·excess / max(1, total - n))`. -/
def anyNRule (a : ActivationFields) (m : Marker) (_ctx : AnalysisContext)
    (ids : List String) : Except PyErr HandlerRes := do
  let n := a.count.getD 2
  let comps ← composedList m
  let found := comps.filter (· ∈ ids)
  let activated := decide (n ≤ (found.length : ℤ))
  let confidence : ℚ :=
    if activated then
      7/10 + (3/10) * ((found.length : ℚ) - (n : ℚ)) / ((max 1 ((comps.length : ℤ) - n) : ℤ) : ℚ)
    else 0
  .ok { activated, confidence := min 1 confidence, components := found }

/-- Token positions at which the contiguous (case-insensitive) token
sequence of `text` occurs — the inner loops of
`_find_component_positions`. -/
def findPositionsForText (tokens : List String) (text : String) : List ℕ :=
  let tt := pySplitWs (pyLower text)
  let bound := if tt.length ≤ tokens.length then tokens.length - tt.length + 1 else 0
  (List.range bound).filter fun i =>
    (List.range tt.length).all fun j =>
      pyLower (tokens.getD (i + j) "") = tt.getD j ""

/-- Append a position to a `defaultdict(list)` of positions, preserving
first-insertion key order. -/
def addPos (ps : List (String × List ℕ)) (k : String) (i : ℕ) : List (String × List ℕ) :=
  match ps with
  | [] => [(k, [i])]
  | (k', v) :: t => if k' = k then (k', v ++ [i]) :: t else (k', v) :: addPos t k i

/-- `_find_component_positions`: for each detected marker whose id is a
component, locate each of its matched example texts in the token
stream.  (The `detected_ids` parameter is accepted but unused, as in
the source.) -/
def findComponentPositions (components : List String) (ctx : AnalysisContext)
    (_detectedIds : List String) : List (String × List ℕ) :=
  if ¬ ctx.tokensTruthy then []
  else
    ctx.detected_markers.foldl (fun ps det =>
      if det.marker_id ∈ components then
        det.examples_matched.foldl (fun ps text =>
          (findPositionsForText ctx.tokensList text).foldl
            (fun ps i => addPos ps det.marker_id i) ps) ps
      else ps) []

/-- `min` of a non-empty position list. -/
def posMin : List ℕ → ℕ
  | [] => 0
  | p :: ps => ps.foldl min p

/-- `max` of a non-empty position list. -/
def posMax : List ℕ → ℕ
  | [] => 0
  | p :: ps => ps.foldl max p

/-- `_check_strict_temporal_order`: first occurrences must be
non-decreasing in `composed_of` order with consecutive gaps ≤ window;
confidence `max(0.6, 0.9 - 0.3·span/(window·n))`. -/
def checkStrictTemporalOrder (components : List String)
    (positions : List (String × List ℕ)) (window : ℤ) : Except PyErr (Bool × ℚ) :=
  match components.mapM (fun c =>
      match positions.lookup c with
      | some (p :: ps) => some (posMin (p :: ps))
      | _ => none) with
  | none => .ok (false, 0)
  | some firsts =>
    if firsts ≠ List.mergeSort firsts (· ≤ ·) then .ok (false, 0)
    else if (firsts.zip firsts.tail).any (fun g => window < (g.2 : ℤ) - (g.1 : ℤ)) then
      .ok (false, 0)
    else do
      let total_span : ℚ := (firsts.getLastD 0 : ℚ) - (firsts.headD 0 : ℚ)
      let q ← pyDiv ((3/10) * total_span) ((window : ℚ) * (components.length : ℚ))
      .ok (true, max (3/5) (9/10 - q))

/-- `_check_temporal_proximity`: all occurrences within gap ≤ window;
confidence `max(0.5, 0.9 - 0.4·avg_gap/window)`. -/
def checkTemporalProximity (positions : List (String × List ℕ)) (window : ℤ) :
    Except PyErr (Bool × ℚ) :=
  let all_positions := (positions.map Prod.snd).flatten
  if all_positions.length < 2 then .ok (false, 0)
  else
    let sorted := List.mergeSort all_positions (· ≤ ·)
    let max_gap := posMax ((sorted.zip sorted.tail).map fun g => g.2 - g.1)
    if window < (max_gap : ℤ) then .ok (false, 0)
    else do
      let avg_gap : ℚ :=
        ((sorted.getLastD 0 : ℚ) - (sorted.headD 0 : ℚ)) / (max 1 (all_positions.length - 1) : ℕ)
      let q ← pyDiv ((2/5) * avg_gap) (window : ℚ)
      .ok (true, max (1/2) (9/10 - q))

/-- `_calculate_max_distance`. -/
def calculateMaxDistance (positions : List (String × List ℕ)) : ℕ :=
  let all_positions := (positions.map Prod.snd).flatten
  if all_positions.length < 2 then 0
  else posMax all_positions - posMin all_positions

/-- `_check_temporal_rule`. -/
def temporalRule (a : ActivationFields) (m : Marker) (ctx : AnalysisContext)
    (ids : List String) : Except PyErr HandlerRes := do
  let window := a.window.getD 10
  let strict_order := a.strict_order.getD false
  let comps ← composedList m
  let positions := findComponentPositions comps ctx ids
  if positions = [] then
    .ok { activated := false, confidence := 0, components := [] }
  else do
    let r ← if strict_order then checkStrictTemporalOrder comps positions window
            else checkTemporalProximity positions window
    .ok { activated := r.1, confidence := r.2, components := positions.map Prod.fst,
          nlp_enhanced := some true }

/-- `_check_sentiment_rule`.  With no components found it falls back to
the ALL rule without touching sentiment data; otherwise it evaluates
`context.sentiment_scores`, an attribute the `AnalysisContext` model
does not declare, so the check raises `AttributeError` (the alignment
logic below that read is unreachable under the repository's model). -/
def sentimentRule (m : Marker) (ctx : AnalysisContext) (ids : List String) :
    Except PyErr HandlerRes := do
  let comps ← composedList m
  let found := comps.filter (· ∈ ids)
  if found = [] then allRule m ctx ids
  else do
    let s ← ctx.getSentimentScores
    nomatch s

/-- `_check_proximity_rule`: needs ≥ 2 found components; empty position
table falls back to ALL; otherwise max pairwise distance ≤ max_distance
(default 20); the returned confidence is `max(0.5, ...)` even when not
activated. -/
def proximityRule (a : ActivationFields) (m : Marker) (ctx : AnalysisContext)
    (ids : List String) : Except PyErr HandlerRes := do
  let max_distance := a.max_distance.getD 20
  let comps ← composedList m
  let found := comps.filter (· ∈ ids)
  if found.length < 2 then
    .ok { activated := false, confidence := 0, components := found }
  else
    let positions := findComponentPositions found ctx ids
    if positions = [] then allRule m ctx ids
    else
      let maxd := calculateMaxDistance positions
      if (maxd : ℤ) ≤ max_distance then do
        let q ← pyDiv ((2/5) * (maxd : ℚ)) ((max_distance : ℤ) : ℚ)
        .ok { activated := true, confidence := max (1/2) (9/10 - q), components := found,
              nlp_enhanced := some true }
      else
        .ok { activated := false, confidence := max (1/2) 0, components := found,
              nlp_enhanced := some true }

/-- The fixed German negation lexicon. -/
def negationWords : List String :=
  ["nicht", "kein", "keine", "niemals", "nie", "nirgends", "niemand"]

/-- `_detect_negation_context`: a negation word within
`negation_window` tokens of any component occurrence. -/
def detectNegationContext (components : List String) (ctx : AnalysisContext)
    (window : ℤ) : Bool :=
  if ¬ ctx.tokensTruthy then false
  else
    let tokens := ctx.tokensList
    let positions := findComponentPositions components ctx components
    positions.any fun kv => kv.2.any fun pos =>
      let start := max 0 ((pos : ℤ) - window)
      let stop := min (tokens.length : ℤ) ((pos : ℤ) + window + 1)
      (pySlice tokens start.toNat stop.toNat).any fun t => pyLower t ∈ negationWords

/-- `_check_negation_rule`: see the source — with `allow_negation` the
confidence (0.9, or 0.7 under detected negation) is set independently
of the activation flag. -/
def negationRule (a : ActivationFields) (m : Marker) (ctx : AnalysisContext)
    (ids : List String) : Except PyErr HandlerRes := do
  let negation_window := a.negation_window.getD 3
  let allow_negation := a.allow_negation.getD false
  let comps ← composedList m
  let found := comps.filter (· ∈ ids)
  if found = [] then
    .ok { activated := false, confidence := 0, components := [] }
  else
    let has_negation := detectNegationContext found ctx negation_window
    if allow_negation then
      .ok { activated := decide (found.length = comps.length),
            confidence := if has_negation then 7/10 else 9/10,
            components := found, nlp_enhanced := some true }
    else
      let activated := decide (found.length = comps.length) && !has_negation
      .ok { activated, confidence := if activated then 9/10 else 0,
            components := found, nlp_enhanced := some true }

/-- The fixed adversative-conjunction lexicon. -/
def conjunctionWords : List String :=
  ["aber", "jedoch", "trotzdem", "dennoch", "obwohl", "allerdings"]

/-- Lexicographic order on `(min, max, component)` ranges, as Python
sorts tuples. -/
def rangeLe (x y : ℕ × ℕ × String) : Bool :=
  x.1 < y.1 ∨ (x.1 = y.1 ∧ (x.2.1 < y.2.1 ∨ (x.2.1 = y.2.1 ∧ x.2.2 ≤ y.2.2)))

/-- `_check_conjunction_pattern`: ≥ 2 found components and a connector
from the lexicon between consecutive component spans. -/
def conjunctionPattern (m : Marker) (ctx : AnalysisContext) (ids : List String) :
    Except PyErr HandlerRes := do
  let comps ← composedList m
  let found := comps.filter (· ∈ ids)
  if found.length < 2 then
    .ok { activated := false, confidence := 0, components := found }
  else
    let positions := findComponentPositions found ctx ids
    let pos_ranges := positions.filterMap fun kv =>
      match kv.2 with
      | [] => none
      | p :: ps => some (posMin (p :: ps), posMax (p :: ps), kv.1)
    let sorted := List.mergeSort pos_ranges rangeLe
    let has_conjunction :=
      if 2 ≤ positions.length ∧ ctx.tokensTruthy then
        (List.range (sorted.length - 1)).any fun i =>
          let s := (sorted.getD i (0, 0, "")).2.1
          let e := (sorted.getD (i + 1) (0, 0, "")).1
          (pySlice ctx.tokensList s e).any fun t => pyLower t ∈ conjunctionWords
      else false
    let activated := decide (found.length = comps.length) && has_conjunction
    .ok { activated, confidence := if activated then 19/20 else 0,
          components := found, nlp_enhanced := some true }

/-- `_check_pattern_rule`: dispatches on the `pattern` key;
`cause_effect` is a documented stub that defers to the ALL rule, as does
any unknown pattern type. -/
def patternRule (a : ActivationFields) (m : Marker) (ctx : AnalysisContext)
    (ids : List String) : Except PyErr HandlerRes :=
  let pattern_type := a.pattern.getD "conjunction"
  if pattern_type = "conjunction" then conjunctionPattern m ctx ids
  else if pattern_type = "cause_effect" then allRule m ctx ids
  else allRule m ctx ids

/-- The fixed uncertainty lexicon of `_apply_nlp_enhancements`. -/
def uncertaintyMarkers : List String :=
  ["vielleicht", "möglicherweise", "eventuell", "vermutlich"]

/-- The fixed emphasis lexicon of `_apply_nlp_enhancements`. -/
def emphasisMarkers : List String :=
  ["wirklich", "tatsächlich", "definitiv", "sicherlich"]

/-- `_apply_nlp_enhancements`: multiply the confidence by 0.9 when the
text ends in `?`, by 0.85 on an uncertainty token, by 1.1 (capped at 1)
on an emphasis token; set `nlp_enhanced`. -/
def applyNlpEnhancements (ctx : AnalysisContext) (o : Outcome) : Outcome :=
  if ¬ ctx.tokensTruthy then o
  else
    let tokens := ctx.tokensList
    let c1 := if tokens.getLast? = some "?" then o.confidence * (9/10) else o.confidence
    let c2 := if tokens.any (fun t => pyLower t ∈ uncertaintyMarkers) then c1 * (17/20) else c1
    let c3 := if tokens.any (fun t => pyLower t ∈ emphasisMarkers) then min 1 (c2 * (11/10)) else c2
    { o with confidence := c3, nlp_enhanced := true }

/-- Combine COMPOSITE sub-results: AND ⇒ all activated / min
confidence; any other operator ⇒ any activated / max confidence; the
components are deduplicated (`list(set(...))`; Python's set iteration
order is unspecified — first-occurrence order is used here). -/
def combineComposite (operator : String) (results : List Outcome) : HandlerRes :=
  let activated :=
    if operator = "AND" then results.all (·.activated) else results.any (·.activated)
  let confidence : ℚ :=
    match results with
    | [] => 0
    | x :: xs =>
      if operator = "AND" then (xs.map (·.confidence)).foldl min x.confidence
      else (xs.map (·.confidence)).foldl max x.confidence
  let components := ((results.map (·.components)).flatten).foldl
    (fun acc c => if c ∈ acc then acc else acc ++ [c]) []
  { activated, confidence, components, nlp_enhanced := some true }

/-- Wrap a handler result into the outcome dict built by
`check_activation` (`rule_type` was stored before dispatch;
`nlp_enhanced` defaults to the base value `false` when the handler's
dict has no such key), then post-process when activated and tokens are
present. -/
def finishCheck (ctx : AnalysisContext) (rt : String) (hr : HandlerRes) : Outcome :=
  let merged : Outcome :=
    ⟨hr.activated, hr.confidence, hr.components, some rt, hr.nlp_enhanced.getD false⟩
  if merged.activated && ctx.tokensTruthy then applyNlpEnhancements ctx merged else merged

/-- The early-return path (`not marker.activation or not
marker.composed_of`) hands the ALL-rule dict back directly: it carries
no `rule_type` key and, for the ALL rule, no `nlp_enhanced` key. -/
def wrapEarly (hr : HandlerRes) : Outcome :=
  ⟨hr.activated, hr.confidence, hr.components, none, hr.nlp_enhanced.getD false⟩

/-- Evaluate one COMPOSITE sub-rule: `check_activation` on a temporary
marker identical to `m` but with the sub-rule as its activation (the
sub-rule dict is non-empty — it carries `type` — and `composed_of` is
unchanged). -/
def evalTempMarker (f : ActivationFields) (m : Marker) (ctx : AnalysisContext)
    (ids : List String) : Except PyErr Outcome :=
  if composedFalsy m.composed_of then (allRule m ctx ids).map wrapEarly
  else do
    let rt := pyUpper (f.type.getD "ALL")
    let hr ←
      match rt with
      | "ALL" => allRule m ctx ids
      | "ANY" => anyRule m ctx ids
      | "ANY_N" => anyNRule f m ctx ids
      | "TEMPORAL" => temporalRule f m ctx ids
      | "SENTIMENT" => sentimentRule m ctx ids
      | "PROXIMITY" => proximityRule f m ctx ids
      | "NEGATION" => negationRule f m ctx ids
      | "PATTERN" => patternRule f m ctx ids
      | "COMPOSITE" => .ok (combineComposite (f.operator.getD "AND") [])
      | _ => allRule m ctx ids
    .ok (finishCheck ctx rt hr)

/-- `_check_composite_rule`: evaluate each sub-rule as an independent
marker check (a sub-rule without a `type` key raises `KeyError` at
`rule["type"]`) and combine with the configured operator. -/
def compositeRule (c : ActivationCfg) (m : Marker) (ctx : AnalysisContext)
    (ids : List String) : Except PyErr HandlerRes := do
  let results ← c.rules.mapM fun r =>
    match r.type with
    | none => .error .keyError
    | some _ => evalTempMarker r m ctx ids
  .ok (combineComposite (c.operator.getD "AND") results)

/-- `check_activation`: early ALL fallback on a falsy activation or
`composed_of`; otherwise dispatch on the uppercased `type` (default
`ALL`; unknown types fall back to ALL), then apply the NLP
post-adjustments when activated and tokens are present. -/
def checkActivation (m : Marker) (ctx : AnalysisContext) (ids : List String) :
    Except PyErr Outcome :=
  match m.activation with
  | none => (allRule m ctx ids).map wrapEarly
  | some c =>
    if composedFalsy m.composed_of then (allRule m ctx ids).map wrapEarly
    else do
      let rt := pyUpper (c.type.getD "ALL")
      let hr ←
        match rt with
        | "ALL" => allRule m ctx ids
        | "ANY" => anyRule m ctx ids
        | "ANY_N" => anyNRule c.toActivationFields m ctx ids
        | "TEMPORAL" => temporalRule c.toActivationFields m ctx ids
        | "SENTIMENT" => sentimentRule m ctx ids
        | "PROXIMITY" => proximityRule c.toActivationFields m ctx ids
        | "NEGATION" => negationRule c.toActivationFields m ctx ids
        | "PATTERN" => patternRule c.toActivationFields m ctx ids
        | "COMPOSITE" => compositeRule c m ctx ids
        | _ => allRule m ctx ids
      .ok (finishCheck ctx rt hr)

/-! ## Engine lemmas -/

/-- A filter keeps the full length exactly when every element passes. -/
theorem length_filter_eq_length_iff {α} [DecidableEq α] (l ids : List α) :
    ((l.filter (· ∈ ids)).length = l.length) ↔ ∀ x ∈ l, x ∈ ids := by
  constructor
  · intro h x hx
    have hfl : l.filter (· ∈ ids) = l :=
      (List.filter_sublist l).eq_of_length h
    have := List.filter_eq_self.mp hfl x hx
    simpa using this
  · intro h
    rw [List.filter_eq_self.mpr fun a ha => by simpa using h a ha]

/-- The NLP post-adjustments never change the activation flag. -/
theorem applyNlpEnhancements_activated (ctx : AnalysisContext) (o : Outcome) :
    (applyNlpEnhancements ctx o).activated = o.activated := by
  unfold applyNlpEnhancements
  split <;> rfl

/-- `finishCheck` preserves the handler's activation flag. -/
theorem finishCheck_activated (ctx : AnalysisContext) (rt : String) (hr : HandlerRes) :
    (finishCheck ctx rt hr).activated = hr.activated := by
  by_cases h : hr.activated && ctx.tokensTruthy <;>
    simp [finishCheck, h, applyNlpEnhancements_activated]

/-- Without activation the post-adjustments are skipped. -/
theorem finishCheck_of_not_activated (ctx : AnalysisContext) (rt : String)
    (hr : HandlerRes) (h : hr.activated = false) :
    finishCheck ctx rt hr
      = ⟨hr.activated, hr.confidence, hr.components, some rt, hr.nlp_enhanced.getD false⟩ := by
  unfold finishCheck
  simp [h]

/-- Without truthy tokens the post-adjustments are skipped. -/
theorem finishCheck_of_no_tokens (ctx : AnalysisContext) (rt : String)
    (hr : HandlerRes) (h : ctx.tokensTruthy = false) :
    finishCheck ctx rt hr
      = ⟨hr.activated, hr.confidence, hr.components, some rt, hr.nlp_enhanced.getD false⟩ := by
  unfold finishCheck
  simp [h]

/-- With a non-empty `composed_of`, `allRule` computes the found list
and the length test. -/
theorem allRule_eq (m : Marker) (ctx : AnalysisContext) (ids : List String)
    (l : List String) (hc : m.composed_of = some l) :
    allRule m ctx ids
      = .ok ⟨decide ((l.filter (· ∈ ids)).length = l.length),
             if decide ((l.filter (· ∈ ids)).length = l.length) then 9/10 else 0,
             l.filter (· ∈ ids), none⟩ := by
  simp [allRule, composedList, hc, Bind.bind, Except.bind]

/-- C10.  A marker whose `composed_of` is the empty list takes the
early default-ALL path of `check_activation` (an empty list is falsy)
and is vacuously activated with confidence 0.9, for every context and
detected-id set; the early return also bypasses the NLP
post-adjustments. -/
theorem claim_C10 (m : Marker) (ctx : AnalysisContext) (ids : List String)
    (hc : m.composed_of = some []) :
    checkActivation m ctx ids = .ok ⟨true, 9/10, [], none, false⟩ := by
  unfold checkActivation
  cases ha : m.activation <;>
    simp [hc, composedFalsy, allRule_eq m ctx ids [] hc, Except.map, wrapEarly]

/-- Witness for `claim_C10` at a concrete composite marker with an
empty `composed_of` and a concrete context. -/
theorem claim_C10_witness :
    checkActivation
        { id := "C_E", composed_of := some [],
          activation := some { type := some "SENTIMENT" } }
        { tokens := some ["was", "?"] } ["S_X"]
      = .ok ⟨true, 9/10, [], none, false⟩ :=
  claim_C10 _ _ _ rfl

/-- The SENTIMENT-rule marker of the degradation scenario. -/
def sentMarker : Marker :=
  { id := "C_S", composed_of := some ["S_X"],
    activation := some { type := some "SENTIMENT" } }

/-- C8.  With at least one component found, `_check_sentiment_rule`
evaluates `context.sentiment_scores` before it can fall back; the
`AnalysisContext` model declares no such field, so `check_activation`
raises `AttributeError` instead of returning the ALL-rule outcome
(activated, confidence 0.9) that the fallback would produce. -/
theorem claim_C8_bug :
    checkActivation sentMarker {} ["S_X"] = .error .attributeError
    ∧ (allRule sentMarker {} ["S_X"]).map wrapEarly
        = .ok ⟨true, 9/10, ["S_X"], none, false⟩ := by
  constructor
  · simp [checkActivation, sentMarker, composedFalsy,
      show pyUpper "SENTIMENT" = "SENTIMENT" from rfl,
      sentimentRule, composedList, AnalysisContext.getSentimentScores,
      Bind.bind, Except.bind]
  · simp [allRule_eq sentMarker {} ["S_X"] ["S_X"] rfl, Except.map, wrapEarly]

/-- C1, amended.  For a marker with an explicit ALL rule (or an absent
activation block) and a non-empty `composed_of`, `check_activation`
activates exactly when every component id is detected and returns
confidence 0.0 whenever not activated; the activated confidence is 0.9
provided the context carries no token data — with tokens present, the
NLP post-adjustments of `check_activation` may scale an activated
marker's confidence away from 0.9.  The absent-activation early path
returns the marker's dict before the adjustment step, so its 0.9/0.0
confidence holds for EVERY context, tokens present or not (final
conjunct, unconditional on the tokens). -/
theorem claim_C1_amended (m : Marker) (ctx : AnalysisContext) (ids : List String)
    (l : List String) (hc : m.composed_of = some l) (hl : l ≠ [])
    (hall : m.activation = none
      ∨ ∃ c, m.activation = some c ∧ pyUpper (c.type.getD "ALL") = "ALL") :
    ∃ r, checkActivation m ctx ids = .ok r
      ∧ (r.activated = true ↔ ∀ x ∈ l, x ∈ ids)
      ∧ (r.activated = false → r.confidence = 0)
      ∧ (ctx.tokensTruthy = false →
          r.confidence = if r.activated then 9/10 else 0)
      ∧ (m.activation = none →
          r.confidence = if r.activated then 9/10 else 0) := by
  obtain ⟨x, xs, rfl⟩ : ∃ y ys, l = y :: ys := by
    cases l with
    | nil => exact absurd rfl hl
    | cons y ys => exact ⟨y, ys, rfl⟩
  rcases hall with ha | ⟨c, ha, hrt⟩
  · have hck : checkActivation m ctx ids
        = .ok (wrapEarly ⟨decide (((x :: xs).filter (· ∈ ids)).length = (x :: xs).length),
            if decide (((x :: xs).filter (· ∈ ids)).length = (x :: xs).length) then 9/10 else 0,
            (x :: xs).filter (· ∈ ids), none⟩) := by
      unfold checkActivation
      rw [ha, allRule_eq m ctx ids (x :: xs) hc]
      rfl
    refine ⟨_, hck, ?_, ?_, ?_, ?_⟩
    · simp only [wrapEarly, decide_eq_true_eq]
      exact length_filter_eq_length_iff _ ids
    · intro h
      simp only [wrapEarly] at h ⊢
      simp at h
      simp [h]
    · intro _
      rfl
    · intro _
      rfl
  · have hck : checkActivation m ctx ids
        = .ok (finishCheck ctx "ALL"
            ⟨decide (((x :: xs).filter (· ∈ ids)).length = (x :: xs).length),
             if decide (((x :: xs).filter (· ∈ ids)).length = (x :: xs).length) then 9/10 else 0,
             (x :: xs).filter (· ∈ ids), none⟩) := by
      unfold checkActivation
      rw [ha, hc]
      simp only [composedFalsy, Bool.false_eq_true, if_neg]
      rw [hrt, allRule_eq m ctx ids (x :: xs) hc]
      rfl
    refine ⟨_, hck, ?_, ?_, ?_, ?_⟩
    · rw [finishCheck_activated]
      simp only [decide_eq_true_eq]
      exact length_filter_eq_length_iff _ ids
    · intro h
      rw [finishCheck_activated] at h
      rw [finishCheck_of_not_activated _ _ _ h]
      simp at h
      simp [h]
    · intro htok
      rw [finishCheck_of_no_tokens _ _ _ htok]
    · intro h
      rw [ha] at h
      exact absurd h (by simp)

/-- The explicit-ALL marker of the counterexample. -/
def allCtrMarker : Marker :=
  { id := "C_T", composed_of := some ["S_X"], activation := some { type := some "ALL" } }

/-- C1, counterexample to the claim as stated: with an explicit ALL
rule, all components detected, and a token stream ending in `?`, the
question-context post-adjustment scales the confidence to
`0.9 · 0.9 = 0.81`, so `check_activation` does not return 0.9 for this
activated marker. -/
theorem claim_C1_counterexample :
    checkActivation allCtrMarker { tokens := some ["was", "?"] } ["S_X"]
      = .ok ⟨true, 81/100, ["S_X"], some "ALL", true⟩
    ∧ ((81 : ℚ)/100 ≠ 9/10) := by
  constructor
  · simp [checkActivation, allCtrMarker, composedFalsy, allRule, composedList,
      finishCheck, applyNlpEnhancements, AnalysisContext.tokensTruthy,
      AnalysisContext.tokensList, uncertaintyMarkers, emphasisMarkers,
      Bind.bind, Except.bind, wrapEarly,
      show pyUpper "ALL" = "ALL" from rfl,
      show pyLower "was" = "was" from rfl,
      show pyLower "?" = "?" from rfl]
    norm_num
  · norm_num

/-- Witness for `claim_C1_amended` at a concrete two-component marker
whose activation block is absent, in a context WITH tokens (ending in
`?`): the final, token-unconditional conjunct applies here, exhibiting
that the early path returns confidence 0.9 untouched by the
adjustments. -/
theorem claim_C1_amended_witness :
    ∃ r, checkActivation
        { id := "C_AB", composed_of := some ["S_A", "S_B"], activation := none }
        { tokens := some ["was", "?"] } ["S_A", "S_B"] = .ok r
      ∧ (r.activated = true ↔ ∀ x ∈ ["S_A", "S_B"], x ∈ ["S_A", "S_B"])
      ∧ (r.activated = false → r.confidence = 0)
      ∧ ((AnalysisContext.tokensTruthy { tokens := some ["was", "?"] } = false) →
          r.confidence = if r.activated then 9/10 else 0)
      ∧ (({ id := "C_AB", composed_of := some ["S_A", "S_B"],
            activation := none } : Marker).activation = none →
          r.confidence = if r.activated then 9/10 else 0) :=
  claim_C1_amended _ { tokens := some ["was", "?"] } ["S_A", "S_B"]
    ["S_A", "S_B"] rfl (by simp) (.inl rfl)

/-- With a non-empty `composed_of`, `anyNRule` computes the ANY_N
outcome in closed form. -/
theorem anyNRule_eq (a : ActivationFields) (m : Marker)
    (ctx : AnalysisContext) (ids : List String) (l : List String)
    (hc : m.composed_of = some l) :
    anyNRule a m ctx ids
      = .ok ⟨decide (a.count.getD 2 ≤ ((l.filter (· ∈ ids)).length : ℤ)),
             min 1 (if decide (a.count.getD 2 ≤ ((l.filter (· ∈ ids)).length : ℤ)) then
               7/10 + (3/10) * (((l.filter (· ∈ ids)).length : ℚ) - ((a.count.getD 2 : ℤ) : ℚ))
                 / ((max 1 ((l.length : ℤ) - a.count.getD 2) : ℤ) : ℚ)
             else 0),
             l.filter (· ∈ ids), none⟩ := by
  simp [anyNRule, composedList, hc, Bind.bind, Except.bind]

/-- C6, amended.  For an ANY_N marker, `check_activation` activates
exactly when `found ≥ count` (`count` defaulting to 2), returns
confidence 0.0 when not activated, and — provided the context carries
no token data, so the NLP post-adjustments do not scale the result —
returns `min(1, 0.7 + 0.3·(found-count)/max(1, total-count))` when
activated. -/
theorem claim_C6_amended (m : Marker) (ctx : AnalysisContext)
    (ids : List String) (c : ActivationCfg) (l : List String)
    (ha : m.activation = some c)
    (hrt : pyUpper (c.type.getD "ALL") = "ANY_N")
    (hc : m.composed_of = some l) (hl : l ≠ []) :
    ∃ r, checkActivation m ctx ids = .ok r
      ∧ (r.activated = true ↔ c.count.getD 2 ≤ ((l.filter (· ∈ ids)).length : ℤ))
      ∧ (r.activated = false → r.confidence = 0)
      ∧ (ctx.tokensTruthy = false → r.activated = true →
          r.confidence
            = min 1 (7/10 + (3/10) * (((l.filter (· ∈ ids)).length : ℚ)
                  - ((c.count.getD 2 : ℤ) : ℚ))
                / ((max 1 ((l.length : ℤ) - c.count.getD 2) : ℤ) : ℚ))) := by
  obtain ⟨x, xs, rfl⟩ : ∃ y ys, l = y :: ys := by
    cases l with
    | nil => exact absurd rfl hl
    | cons y ys => exact ⟨y, ys, rfl⟩
  have hck : checkActivation m ctx ids
      = .ok (finishCheck ctx "ANY_N"
          ⟨decide (c.count.getD 2 ≤ (((x :: xs).filter (· ∈ ids)).length : ℤ)),
           min 1 (if decide (c.count.getD 2 ≤ (((x :: xs).filter (· ∈ ids)).length : ℤ)) then
             7/10 + (3/10) * ((((x :: xs).filter (· ∈ ids)).length : ℚ) - ((c.count.getD 2 : ℤ) : ℚ))
               / ((max 1 (((x :: xs).length : ℤ) - c.count.getD 2) : ℤ) : ℚ)
           else 0),
           (x :: xs).filter (· ∈ ids), none⟩) := by
    unfold checkActivation
    rw [ha, hc]
    simp only [composedFalsy, Bool.false_eq_true, if_neg]
    rw [hrt, anyNRule_eq c.toActivationFields m ctx ids (x :: xs) hc]
    rfl
  refine ⟨_, hck, ?_, ?_, ?_⟩
  · rw [finishCheck_activated]
    simp only [decide_eq_true_eq]
  · intro h
    rw [finishCheck_activated] at h
    rw [finishCheck_of_not_activated _ _ _ h]
    simp at h
    simp only [decide_eq_true_eq]
    rw [if_neg (not_le.mpr h)]
    simp
  · intro htok hact
    rw [finishCheck_of_no_tokens _ _ _ htok] at hact ⊢
    simp only at hact ⊢
    simp [hact]

/-- The ANY_N marker of the counterexample (four components, default
count 2). -/
def anyNCtrMarker : Marker :=
  { id := "C_N", composed_of := some ["a", "b", "c", "d"],
    activation := some { type := some "ANY_N" } }

/-- C6, counterexample to the claim as stated: with three of four
components found the table value is `0.7 + 0.3·(1/2) = 0.85`, but a
token stream containing the uncertainty word `vielleicht` makes
`check_activation` scale the activated confidence to
`0.85 · 0.85 = 0.7225 ≠ 0.85`. -/
theorem claim_C6_counterexample :
    checkActivation anyNCtrMarker { tokens := some ["vielleicht"] } ["a", "b", "c"]
      = .ok ⟨true, 289/400, ["a", "b", "c"], some "ANY_N", true⟩
    ∧ min (1 : ℚ) (7/10 + (3/10) * (((3 : ℚ)) - 2) / ((max 1 ((4 : ℤ) - 2) : ℤ) : ℚ)) = 17/20
    ∧ ((289 : ℚ)/400 ≠ 17/20) := by
  refine ⟨?_, by norm_num, by norm_num⟩
  simp [checkActivation, anyNCtrMarker, composedFalsy, anyNRule, composedList,
    finishCheck, applyNlpEnhancements, AnalysisContext.tokensTruthy,
    AnalysisContext.tokensList, uncertaintyMarkers, emphasisMarkers,
    Bind.bind, Except.bind,
    show pyUpper "ANY_N" = "ANY_N" from rfl,
    show pyLower "vielleicht" = "vielleicht" from rfl]
  norm_num

/-- The ANY_N marker of the witness. -/
def anyNWitMarker : Marker :=
  { id := "C_W", composed_of := some ["a", "b", "c", "d"],
    activation := some { type := some "ANY_N" } }

/-- Witness for `claim_C6_amended`: four components, default count 2,
three found, token-free context — the spec's `0.85` example. -/
theorem claim_C6_amended_witness :
    ∃ r, checkActivation anyNWitMarker {} ["a", "b", "c"] = .ok r
      ∧ (r.activated = true ↔ (2 : ℤ) ≤ (((["a", "b", "c", "d"] : List String).filter
            (· ∈ (["a", "b", "c"] : List String))).length : ℤ))
      ∧ (r.activated = false → r.confidence = 0)
      ∧ ((AnalysisContext.tokensTruthy {} = false) → r.activated = true →
          r.confidence = min 1 (7/10 + (3/10) * (((((["a", "b", "c", "d"] : List String).filter
                (· ∈ (["a", "b", "c"] : List String))).length : ℚ)) - ((2 : ℤ) : ℚ))
              / ((max 1 (((["a", "b", "c", "d"] : List String).length : ℤ) - 2) : ℤ) : ℚ))) :=
  claim_C6_amended anyNWitMarker {} ["a", "b", "c"] { type := some "ANY_N" }
    ["a", "b", "c", "d"] rfl rfl rfl (by simp)

/-- C9, amended.  For a NEGATION-rule check: with no component found
the result is not activated with confidence 0.0; with components found
and `allow_negation` false, the confidence is 0.9 when activated and
0.0 otherwise; but with `allow_negation` true the confidence is set
independently of the activation flag — 0.7 when negation is detected,
0.9 otherwise, even when the marker is not activated.  The stated
confidences are exact whenever the marker is not activated or the
context carries no tokens (otherwise the NLP post-adjustments may scale
an activated confidence). -/
theorem claim_C9_amended (m : Marker) (ctx : AnalysisContext) (ids : List String)
    (c : ActivationCfg) (l : List String)
    (ha : m.activation = some c)
    (hrt : pyUpper (c.type.getD "ALL") = "NEGATION")
    (hc : m.composed_of = some l) (hl : l ≠ []) :
    ∃ r, checkActivation m ctx ids = .ok r
      ∧ (l.filter (· ∈ ids) = [] → r.activated = false ∧ r.confidence = 0)
      ∧ (l.filter (· ∈ ids) ≠ [] →
          r.activated = (if c.allow_negation.getD false then
              decide ((l.filter (· ∈ ids)).length = l.length)
            else decide ((l.filter (· ∈ ids)).length = l.length)
              && !detectNegationContext (l.filter (· ∈ ids)) ctx (c.negation_window.getD 3)))
      ∧ (l.filter (· ∈ ids) ≠ [] → c.allow_negation.getD false = true →
          (r.activated = false ∨ ctx.tokensTruthy = false) →
          r.confidence = if detectNegationContext (l.filter (· ∈ ids)) ctx
              (c.negation_window.getD 3) then 7/10 else 9/10)
      ∧ (l.filter (· ∈ ids) ≠ [] → c.allow_negation.getD false = false →
          (r.activated = false ∨ ctx.tokensTruthy = false) →
          r.confidence = if r.activated then 9/10 else 0) := by
  have hdisp : ∀ hr, negationRule c.toActivationFields m ctx ids = .ok hr →
      checkActivation m ctx ids = .ok (finishCheck ctx "NEGATION" hr) := by
    intro hr hhr
    obtain ⟨x, xs, hxl⟩ : ∃ y ys, l = y :: ys := by
      cases l with
      | nil => exact absurd rfl hl
      | cons y ys => exact ⟨y, ys, rfl⟩
    unfold checkActivation
    rw [ha, hc, hxl]
    simp only [composedFalsy, Bool.false_eq_true, if_neg]
    rw [hrt, hhr]
    rfl
  by_cases hfe : l.filter (· ∈ ids) = []
  · have hr0 : negationRule c.toActivationFields m ctx ids
        = .ok ⟨false, 0, [], none⟩ := by
      simp only [negationRule, composedList, hc, Bind.bind, Except.bind]
      simp [hfe]
    refine ⟨_, hdisp _ hr0, ?_, ?_, ?_, ?_⟩
    · intro _
      rw [finishCheck_of_not_activated _ _ _ rfl]
      exact ⟨rfl, rfl⟩
    · intro h; exact absurd hfe h
    · intro h; exact absurd hfe h
    · intro h; exact absurd hfe h
  · by_cases hal : c.allow_negation.getD false
    · have hr0 : negationRule c.toActivationFields m ctx ids
          = .ok ⟨decide ((l.filter (· ∈ ids)).length = l.length),
                 if detectNegationContext (l.filter (· ∈ ids)) ctx
                     (c.negation_window.getD 3) then 7/10 else 9/10,
                 l.filter (· ∈ ids), some true⟩ := by
        simp only [negationRule, composedList, hc, Bind.bind, Except.bind]
        simp [hfe, hal]
      refine ⟨_, hdisp _ hr0, ?_, ?_, ?_, ?_⟩
      · intro h; exact absurd h hfe
      · intro _
        rw [finishCheck_activated]
        simp [hal]
      · intro _ _ hesc
        rcases hesc with hact | htok
        · rw [finishCheck_activated] at hact
          rw [finishCheck_of_not_activated _ _ _ hact]
        · rw [finishCheck_of_no_tokens _ _ _ htok]
      · intro _ hcontra
        rw [hcontra] at hal
        exact absurd hal (by simp)
    · have hal' : c.allow_negation.getD false = false := by simpa using hal
      have hr0 : negationRule c.toActivationFields m ctx ids
          = .ok ⟨decide ((l.filter (· ∈ ids)).length = l.length)
                   && !detectNegationContext (l.filter (· ∈ ids)) ctx
                     (c.negation_window.getD 3),
                 if decide ((l.filter (· ∈ ids)).length = l.length)
                   && !detectNegationContext (l.filter (· ∈ ids)) ctx
                     (c.negation_window.getD 3) then 9/10 else 0,
                 l.filter (· ∈ ids), some true⟩ := by
        simp only [negationRule, composedList, hc, Bind.bind, Except.bind]
        simp [hfe, hal']
      refine ⟨_, hdisp _ hr0, ?_, ?_, ?_, ?_⟩
      · intro h; exact absurd h hfe
      · intro _
        rw [finishCheck_activated]
        simp [hal']
      · intro _ hcontra
        rw [hcontra] at hal'
        exact absurd hal' (by simp)
      · intro _ _ hesc
        rcases hesc with hact | htok
        · rw [finishCheck_activated] at hact
          rw [finishCheck_of_not_activated _ _ _ hact]
        · rw [finishCheck_of_no_tokens _ _ _ htok]

/-- The NEGATION marker of the counterexample (`allow_negation` true). -/
def negCtrMarker : Marker :=
  { id := "C_G", composed_of := some ["X", "Y"],
    activation := some { type := some "NEGATION", allow_negation := some true } }

/-- C9, counterexample to the claim as stated: with `allow_negation`
true and only one of two components found, the marker is NOT activated
yet `check_activation` returns confidence 0.9 (no negation detectable
in a token-free context), not the claimed 0.0. -/
theorem claim_C9_counterexample :
    checkActivation negCtrMarker {} ["X"]
      = .ok ⟨false, 9/10, ["X"], some "NEGATION", true⟩
    ∧ ((9 : ℚ)/10 ≠ 0) := by
  refine ⟨?_, by norm_num⟩
  simp [checkActivation, negCtrMarker, composedFalsy, negationRule, composedList,
    detectNegationContext, AnalysisContext.tokensTruthy, finishCheck,
    Bind.bind, Except.bind,
    show pyUpper "NEGATION" = "NEGATION" from rfl]

/-- The NEGATION marker of the witness (`allow_negation` absent, hence
false). -/
def negWitMarker : Marker :=
  { id := "C_H", composed_of := some ["X", "Y"],
    activation := some { type := some "NEGATION" } }

/-- Witness for `claim_C9_amended`: both components found in a
token-free context under default `allow_negation = false`. -/
theorem claim_C9_amended_witness :
    ∃ r, checkActivation negWitMarker {} ["X", "Y"] = .ok r
      ∧ ((["X", "Y"] : List String).filter (· ∈ (["X", "Y"] : List String)) = [] →
          r.activated = false ∧ r.confidence = 0)
      ∧ ((["X", "Y"] : List String).filter (· ∈ (["X", "Y"] : List String)) ≠ [] →
          r.activated = (if ({ type := some "NEGATION" } : ActivationCfg).allow_negation.getD false then
              decide (((["X", "Y"] : List String).filter (· ∈ (["X", "Y"] : List String))).length
                = (["X", "Y"] : List String).length)
            else decide (((["X", "Y"] : List String).filter (· ∈ (["X", "Y"] : List String))).length
                = (["X", "Y"] : List String).length)
              && !detectNegationContext ((["X", "Y"] : List String).filter
                  (· ∈ (["X", "Y"] : List String))) {}
                (({ type := some "NEGATION" } : ActivationCfg).negation_window.getD 3)))
      ∧ ((["X", "Y"] : List String).filter (· ∈ (["X", "Y"] : List String)) ≠ [] →
          ({ type := some "NEGATION" } : ActivationCfg).allow_negation.getD false = true →
          (r.activated = false ∨ AnalysisContext.tokensTruthy {} = false) →
          r.confidence = if detectNegationContext ((["X", "Y"] : List String).filter
              (· ∈ (["X", "Y"] : List String))) {}
              (({ type := some "NEGATION" } : ActivationCfg).negation_window.getD 3)
            then 7/10 else 9/10)
      ∧ ((["X", "Y"] : List String).filter (· ∈ (["X", "Y"] : List String)) ≠ [] →
          ({ type := some "NEGATION" } : ActivationCfg).allow_negation.getD false = false →
          (r.activated = false ∨ AnalysisContext.tokensTruthy {} = false) →
          r.confidence = if r.activated then 9/10 else 0) :=
  claim_C9_amended negWitMarker {} ["X", "Y"] { type := some "NEGATION" }
    ["X", "Y"] rfl rfl rfl (by simp)

/-! ## Marker service: detection and confidence
    From backend/services/marker_service.py.  The regex engine
    (`re.search` with `re.IGNORECASE`) is an external library modelled
    as an abstract oracle `reSearch : pattern → text → Bool`. -/

/-- `marker.pattern if isinstance(marker.pattern, list) else
[marker.pattern]` (only evaluated under a truthy pattern). -/
def normPatterns : Option StrOrList → List String
  | some x => x.toListNorm
  | none => []

/-- `MarkerService._detect_marker`: any example is a case-insensitive
substring, or any pattern matches, or any frame signal is a
case-insensitive substring. -/
def detectMarker (reSearch : String → String → Bool) (m : Marker) (text : String) :
    Bool :=
  (m.examples.any fun ex => pyIn (pyLower ex) (pyLower text))
  || (optTruthy m.pattern && (normPatterns m.pattern).any fun p => reSearch p text)
  || (m.frame.signal.truthy
      && m.frame.signal.toListNorm.any fun s => pyIn (pyLower s) (pyLower text))

/-- `MarkerService._calculate_confidence`: `min(1, 0.3·match_count)`
from the examples (0 when none match), then — while below 1.0 at loop
entry — `confidence = min(1, confidence + 0.4)` once per matching
pattern. -/
def calculateConfidence (reSearch : String → String → Bool) (m : Marker)
    (text : String) : ℚ :=
  let match_count := (m.examples.filter fun ex => pyIn (pyLower ex) (pyLower text)).length
  let confidence : ℚ := if 0 < match_count then min 1 ((match_count : ℚ) * (3/10)) else 0
  if optTruthy m.pattern ∧ confidence < 1 then
    (normPatterns m.pattern).foldl
      (fun c p => if reSearch p text then min 1 (c + 2/5) else c) confidence
  else confidence

/-- The example-substring part of the confidence, as the spec words it:
`min(1, 0.3 × example_match_count)`. -/
def baseConfidence (m : Marker) (text : String) : ℚ :=
  let match_count := (m.examples.filter fun ex => pyIn (pyLower ex) (pyLower text)).length
  if 0 < match_count then min 1 ((match_count : ℚ) * (3/10)) else 0

/-- The number of patterns that match the text (0 under a falsy
`pattern` field). -/
def patternMatchCount (reSearch : String → String → Bool) (m : Marker)
    (text : String) : ℕ :=
  if optTruthy m.pattern then
    ((normPatterns m.pattern).filter fun p => reSearch p text).length
  else 0

/-- The per-pattern boost loop computes `min(1, c + 0.4·k)` over `k`
matching patterns, for any start value `c ≤ 1`. -/
theorem boost_foldl (text : String) (reSearch : String → String → Bool)
    (ps : List String) (c : ℚ) (hc : c ≤ 1) :
    ps.foldl (fun c p => if reSearch p text then min 1 (c + 2/5) else c) c
      = min 1 (c + (2/5) * ((ps.filter fun p => reSearch p text).length : ℚ)) := by
  induction ps generalizing c with
  | nil => simpa using (min_eq_right hc).symm
  | cons p ps ih =>
    simp only [List.foldl_cons, List.filter_cons]
    by_cases hp : reSearch p text
    · simp only [hp, if_true, List.length_cons, Nat.cast_succ]
      rw [ih _ (min_le_left ..)]
      have h0 : (0 : ℚ) ≤ ((ps.filter fun p => reSearch p text).length : ℚ) := by
        positivity
      rcases le_or_lt (c + 2/5) 1 with h1 | h1
      · rw [min_eq_right h1]
        ring_nf
      · rw [min_eq_left h1.le]
        have hA : (1 : ℚ) ≤ 1 + 2/5 * ((ps.filter fun p => reSearch p text).length : ℚ) := by
          linarith
        have hB : (1 : ℚ)
            ≤ c + 2/5 * (((ps.filter fun p => reSearch p text).length : ℚ) + 1) := by
          nlinarith
        rw [min_eq_left hA, min_eq_left hB]
    · simp only [hp, Bool.false_eq_true, if_false]
      exact ih c hc

/-- C7, amended.  The initial-scan confidence is
`min(1, base + 0.4 × pattern_match_count)` where
`base = min(1, 0.3 × example_match_count)` (0 when no example
matches): the `+0.4` pattern boost is applied once per matching
pattern, cumulatively, capped at 1 — not a single `+0.4` in total. -/
theorem claim_C7_amended (reSearch : String → String → Bool) (m : Marker)
    (text : String) :
    calculateConfidence reSearch m text
      = min 1 (baseConfidence m text
          + (2/5) * (patternMatchCount reSearch m text : ℚ)) := by
  unfold calculateConfidence baseConfidence patternMatchCount
  have hbase : (if 0 < (m.examples.filter fun ex =>
        pyIn (pyLower ex) (pyLower text)).length then
        min 1 (((m.examples.filter fun ex => pyIn (pyLower ex) (pyLower text)).length : ℚ)
          * (3/10)) else 0) ≤ 1 := by
    split
    · exact min_le_left ..
    · norm_num
  by_cases hpat : optTruthy m.pattern
  · simp only [hpat, true_and, if_pos]
    by_cases hlt : (if 0 < (m.examples.filter fun ex =>
          pyIn (pyLower ex) (pyLower text)).length then
          min 1 (((m.examples.filter fun ex => pyIn (pyLower ex) (pyLower text)).length : ℚ)
            * (3/10)) else 0) < 1
    · rw [if_pos hlt]
      exact boost_foldl text reSearch _ _ hbase
    · rw [if_neg hlt]
      have h1 : (if 0 < (m.examples.filter fun ex =>
            pyIn (pyLower ex) (pyLower text)).length then
            min 1 (((m.examples.filter fun ex => pyIn (pyLower ex) (pyLower text)).length : ℚ)
              * (3/10)) else 0) = 1 := le_antisymm hbase (not_lt.mp hlt)
      rw [h1]
      have : (0 : ℚ) ≤ (2/5) * ((((normPatterns m.pattern).filter fun p =>
          reSearch p text)).length : ℚ) := by positivity
      rw [min_eq_left (by linarith)]
  · rw [if_neg fun h => hpat h.1, if_neg hpat, Nat.cast_zero, mul_zero, add_zero]
    exact (min_eq_right hbase).symm

/-- The two-pattern marker of the counterexample.  Its literal patterns
contain no regex metacharacters, so `re.search` on them is substring
search — the oracle below. -/
def c7CtrMarker : Marker :=
  { id := "S_P", examples := ["zzz"], pattern := some (.list ["a", "b"]),
    frame := ⟨.list [], "", "", ""⟩ }

/-- C7, counterexample to the claim as stated: on the text `"ab"` the
marker is detected (via its patterns), no example matches
(base 0), and BOTH patterns match — the loop boosts twice, giving
confidence `0.8`, not the single-boost value `min(1, 0 + 0.4) = 0.4`
the claim predicts. -/
theorem claim_C7_counterexample :
    detectMarker (fun p t => pyIn p t) c7CtrMarker "ab" = true
    ∧ calculateConfidence (fun p t => pyIn p t) c7CtrMarker "ab" = 4/5
    ∧ min (1 : ℚ) (min 1 ((0 : ℚ) * (3/10)) + 2/5) = 2/5
    ∧ ((4 : ℚ)/5 ≠ 2/5) := by
  refine ⟨by decide, ?_, by norm_num, by norm_num⟩
  simp [calculateConfidence, c7CtrMarker, optTruthy, StrOrList.truthy,
    normPatterns, StrOrList.toListNorm,
    show pyIn (pyLower "zzz") (pyLower "ab") = false from by decide,
    show pyIn "a" "ab" = true from by decide,
    show pyIn "b" "ab" = true from by decide]
  norm_num

/-! ## Orchestration: the Phase-3 marker merge
    From `OrchestrationService._merge_markers`
    (backend/services/orchestration_service.py; the DI variant in
    orchestration_service_di.py is identical). -/

/-- The conflict update of `_merge_markers`: the existing entry's
confidence is raised only when the new confidence is strictly greater,
recording the delta as `contextual_boost` (both confidences read with
default 0.5). -/
def updateExisting (e mkr : DetectedEntry) : DetectedEntry :=
  if e.confidence.getD (1/2) < mkr.confidence.getD (1/2) then
    { e with confidence := some (mkr.confidence.getD (1/2)),
             confidence_updated := true,
             contextual_boost := some (mkr.confidence.getD (1/2) - e.confidence.getD (1/2)) }
  else e

/-- `marker['detection_phase'] = 'contextual'` before appending. -/
def tagContextual (e : DetectedEntry) : DetectedEntry :=
  { e with detection_phase := some "contextual" }

/-- One iteration of the `for marker in new_markers` loop:
`existing_ids` is the id set computed once at entry; a known id updates
every entry carrying it, an unknown id is tagged and appended. -/
def mergeStep (existing_ids : List String) (s : List DetectedEntry)
    (mkr : DetectedEntry) : List DetectedEntry :=
  if mkr.marker_id ∈ existing_ids then
    s.map fun e => if e.marker_id = mkr.marker_id then updateExisting e mkr else e
  else s ++ [tagContextual mkr]

/-- `OrchestrationService._merge_markers(context, new_markers)`, as the
transformation it performs on `context.detected_markers`. -/
def mergeMarkers (existing newMarkers : List DetectedEntry) : List DetectedEntry :=
  newMarkers.foldl (mergeStep (existing.map (·.marker_id))) existing

/-- The sequential updates a single existing entry receives over the
whole new-marker list. -/
def foldUpd (existing_ids : List String) (n : List DetectedEntry)
    (x : DetectedEntry) : DetectedEntry :=
  n.foldl (fun y mkr =>
    if mkr.marker_id ∈ existing_ids then
      (if y.marker_id = mkr.marker_id then updateExisting y mkr else y)
    else y) x

/-- The single update an existing entry receives when the new list has
pairwise-distinct ids: the unique new marker with its id, if any. -/
def updOne (n : List DetectedEntry) (x : DetectedEntry) : DetectedEntry :=
  match n.find? (fun mkr => mkr.marker_id = x.marker_id) with
  | some mkr => updateExisting x mkr
  | none => x

theorem updateExisting_marker_id (e mkr : DetectedEntry) :
    (updateExisting e mkr).marker_id = e.marker_id := by
  unfold updateExisting
  split <;> rfl

theorem updateExisting_confidence_getD (e mkr : DetectedEntry) :
    (updateExisting e mkr).confidence.getD (1/2)
      = max (e.confidence.getD (1/2)) (mkr.confidence.getD (1/2)) := by
  unfold updateExisting
  split
  · next h => rw [max_eq_right (le_of_lt h)]; simp
  · next h => rw [max_eq_left (not_lt.mp h)]

theorem updateExisting_idem (x mkr : DetectedEntry) :
    updateExisting (updateExisting x mkr) mkr = updateExisting x mkr := by
  unfold updateExisting
  split
  · next h => simp
  · next h => simp [h]

theorem tagContextual_marker_id (e : DetectedEntry) :
    (tagContextual e).marker_id = e.marker_id := rfl

theorem foldUpd_marker_id (ids0 : List String) (n : List DetectedEntry)
    (x : DetectedEntry) : (foldUpd ids0 n x).marker_id = x.marker_id := by
  induction n generalizing x with
  | nil => rfl
  | cons mkr n ih =>
    show (foldUpd ids0 n _).marker_id = _
    by_cases h1 : mkr.marker_id ∈ ids0 <;> by_cases h2 : x.marker_id = mkr.marker_id <;>
      simp [h1, h2, ih, updateExisting_marker_id]

theorem foldUpd_of_no_match (ids0 : List String) (n : List DetectedEntry)
    (x : DetectedEntry) (h : ∀ mkr ∈ n, mkr.marker_id ≠ x.marker_id) :
    foldUpd ids0 n x = x := by
  induction n with
  | nil => rfl
  | cons mkr n ih =>
    show foldUpd ids0 n _ = _
    have hne : ¬ x.marker_id = mkr.marker_id :=
      fun hx => h mkr (by simp) hx.symm
    by_cases h1 : mkr.marker_id ∈ ids0 <;>
      simp [h1, hne, ih fun m hm => h m (List.mem_cons_of_mem _ hm)]

theorem foldUpd_eq_updOne (ids0 : List String) (n : List DetectedEntry)
    (x : DetectedEntry) (hx : x.marker_id ∈ ids0)
    (hn : (n.map (·.marker_id)).Nodup) :
    foldUpd ids0 n x = updOne n x := by
  induction n generalizing x with
  | nil => rfl
  | cons mkr n ih =>
    by_cases hid : mkr.marker_id = x.marker_id
    · have hin : mkr.marker_id ∈ ids0 := hid ▸ hx
      have hstep : foldUpd ids0 (mkr :: n) x = foldUpd ids0 n (updateExisting x mkr) := by
        show foldUpd ids0 n _ = _
        simp [hin, hid.symm]
      rw [hstep]
      have hrest : ∀ m ∈ n, m.marker_id ≠ (updateExisting x mkr).marker_id := by
        intro m hm
        rw [updateExisting_marker_id, ← hid]
        simp only [List.map_cons, List.nodup_cons] at hn
        exact fun hmm => hn.1 (hmm ▸ List.mem_map_of_mem _ hm)
      rw [foldUpd_of_no_match _ _ _ hrest]
      unfold updOne
      rw [List.find?_cons_of_pos _ (by simp [hid])]
    · have hstep : foldUpd ids0 (mkr :: n) x = foldUpd ids0 n x := by
        show foldUpd ids0 n _ = _
        have hne : ¬ x.marker_id = mkr.marker_id := fun h => hid h.symm
        by_cases h1 : mkr.marker_id ∈ ids0 <;> simp [h1, hne]
      rw [hstep, ih x hx (by simp only [List.map_cons, List.nodup_cons] at hn; exact hn.2)]
      unfold updOne
      rw [List.find?_cons_of_neg _ (by simp [hid])]

theorem merge_fold_split (ids0 : List String) (n : List DetectedEntry) :
    ∀ (a b : List DetectedEntry),
      (∀ x ∈ a, x.marker_id ∈ ids0) → (∀ x ∈ b, x.marker_id ∉ ids0) →
      n.foldl (mergeStep ids0) (a ++ b)
        = a.map (foldUpd ids0 n) ++ b
          ++ (n.filter (fun mkr => mkr.marker_id ∉ ids0)).map tagContextual := by
  induction n with
  | nil =>
    intro a b _ _
    simp [show foldUpd ids0 [] = fun x => x from rfl]
  | cons mkr n ih =>
    intro a b hina hinb
    by_cases hin : mkr.marker_id ∈ ids0
    · have hstep : mergeStep ids0 (a ++ b) mkr
          = (a.map fun e => if e.marker_id = mkr.marker_id then updateExisting e mkr else e)
            ++ b := by
        unfold mergeStep
        rw [if_pos hin, List.map_append]
        congr 1
        have hb : ∀ x ∈ b,
            (if x.marker_id = mkr.marker_id then updateExisting x mkr else x) = id x := by
          intro x hx
          rw [if_neg]
          · rfl
          · exact fun hxid => (hinb x hx) (hxid ▸ hin)
        rw [List.map_congr_left hb, List.map_id]
      rw [List.foldl_cons, hstep,
        ih _ b (fun x hx => by
          obtain ⟨y, hy, rfl⟩ := List.mem_map.mp hx
          split <;> simp [updateExisting_marker_id, hina y hy]) hinb]
      rw [List.map_map]
      have hfu : ∀ x ∈ a,
          (foldUpd ids0 n ∘ fun e =>
            if e.marker_id = mkr.marker_id then updateExisting e mkr else e) x
          = foldUpd ids0 (mkr :: n) x := by
        intro x _
        show foldUpd ids0 n _ = foldUpd ids0 (mkr :: n) x
        show _ = foldUpd ids0 n _
        simp [hin]
      rw [List.map_congr_left hfu, List.filter_cons_of_neg (by simpa using hin)]
    · have hstep : mergeStep ids0 (a ++ b) mkr = a ++ (b ++ [tagContextual mkr]) := by
        unfold mergeStep
        rw [if_neg hin, List.append_assoc]
      rw [List.foldl_cons, hstep,
        ih a _ hina (fun x hx => by
          rcases List.mem_append.mp hx with h | h
          · exact hinb x h
          · simp only [List.mem_singleton] at h
            subst h
            simpa [tagContextual_marker_id] using hin)]
      have hfu : ∀ x ∈ a, foldUpd ids0 n x = foldUpd ids0 (mkr :: n) x := by
        intro x _
        show _ = foldUpd ids0 n _
        simp [hin]
      rw [List.map_congr_left hfu, List.filter_cons_of_pos (by simpa using hin)]
      simp [List.append_assoc]

/-- Closed form of `_merge_markers`: each pre-existing entry receives
the sequence of matching updates, and exactly the new markers whose id
was not already present are tagged and appended, in order. -/
theorem mergeMarkers_closed (e n : List DetectedEntry) :
    mergeMarkers e n
      = e.map (foldUpd (e.map (·.marker_id)) n)
        ++ (n.filter (fun mkr => mkr.marker_id ∉ e.map (·.marker_id))).map tagContextual := by
  have := merge_fold_split (e.map (·.marker_id)) n e []
    (fun x hx => List.mem_map_of_mem _ hx) (by simp)
  simpa [mergeMarkers] using this

/-- The first entry of `find?` on a list with pairwise-distinct
`marker_id`s that matches a member's id is that member itself. -/
theorem find?_self_of_nodup (n : List DetectedEntry) (mkr : DetectedEntry)
    (hm : mkr ∈ n) (hn : (n.map (·.marker_id)).Nodup) :
    n.find? (fun m => m.marker_id = mkr.marker_id) = some mkr := by
  induction n with
  | nil => cases hm
  | cons hd tl ih =>
    simp only [List.map_cons, List.nodup_cons] at hn
    rcases List.mem_cons.mp hm with rfl | hmem
    · rw [List.find?_cons_of_pos _ (by simp)]
    · have hne : hd.marker_id ≠ mkr.marker_id := by
        intro he
        exact hn.1 (he ▸ List.mem_map_of_mem _ hmem)
      rw [List.find?_cons_of_neg _ (by simp [hne])]
      exact ih hmem hn.2

/-- Re-applying the unique matching update is the identity. -/
theorem updOne_idem (n : List DetectedEntry) (x : DetectedEntry) :
    updOne n (updOne n x) = updOne n x := by
  unfold updOne
  cases hf : n.find? (fun m => m.marker_id = x.marker_id) with
  | none =>
    dsimp only
    rw [hf]
  | some mkr =>
    dsimp only
    simp only [updateExisting_marker_id]
    rw [hf]
    dsimp only
    exact updateExisting_idem x mkr

/-- C2.  With pairwise-distinct ids on both sides, the Phase-3 merge
(1) equals the closed form: each pre-existing entry updated by the
unique matching new marker, followed by exactly the new markers whose
id was not already present, tagged `contextual`, in order; (2) updates
an existing entry's confidence only when the new confidence is strictly
greater, recording the delta as `contextual_boost`; (3) keeps the
`marker_id`s pairwise distinct; and (4) is idempotent — merging the
identical list a second time changes nothing. -/
theorem claim_C2 (e n : List DetectedEntry)
    (he : (e.map (·.marker_id)).Nodup) (hn : (n.map (·.marker_id)).Nodup) :
    mergeMarkers e n
      = e.map (updOne n)
        ++ (n.filter (fun mkr => mkr.marker_id ∉ e.map (·.marker_id))).map tagContextual
    ∧ (∀ x ∈ e, (updOne n x).confidence ≠ x.confidence →
        ∃ mkr ∈ n, mkr.marker_id = x.marker_id
          ∧ x.confidence.getD (1/2) < mkr.confidence.getD (1/2)
          ∧ (updOne n x).confidence = some (mkr.confidence.getD (1/2))
          ∧ (updOne n x).contextual_boost
              = some (mkr.confidence.getD (1/2) - x.confidence.getD (1/2)))
    ∧ ((mergeMarkers e n).map (·.marker_id)).Nodup
    ∧ mergeMarkers (mergeMarkers e n) n = mergeMarkers e n := by
  have hclosed : mergeMarkers e n
      = e.map (updOne n)
        ++ (n.filter (fun mkr => mkr.marker_id ∉ e.map (·.marker_id))).map tagContextual := by
    rw [mergeMarkers_closed]
    congr 1
    exact List.map_congr_left fun x hx =>
      foldUpd_eq_updOne _ n x (List.mem_map_of_mem _ hx) hn
  have hupd : ∀ x ∈ e, (updOne n x).confidence ≠ x.confidence →
      ∃ mkr ∈ n, mkr.marker_id = x.marker_id
        ∧ x.confidence.getD (1/2) < mkr.confidence.getD (1/2)
        ∧ (updOne n x).confidence = some (mkr.confidence.getD (1/2))
        ∧ (updOne n x).contextual_boost
            = some (mkr.confidence.getD (1/2) - x.confidence.getD (1/2)) := by
    intro x _ hdiff
    unfold updOne at hdiff ⊢
    cases hfind : n.find? (fun m => m.marker_id = x.marker_id) with
    | none => rw [hfind] at hdiff; exact absurd rfl hdiff
    | some mkr =>
      rw [hfind] at hdiff
      dsimp only at hdiff ⊢
      have hmem : mkr ∈ n := List.mem_of_find?_eq_some hfind
      have hid : mkr.marker_id = x.marker_id := by
        have := List.find?_some hfind
        simpa using this
      refine ⟨mkr, hmem, hid, ?_⟩
      unfold updateExisting at hdiff ⊢
      by_cases hlt : x.confidence.getD (1/2) < mkr.confidence.getD (1/2)
      · rw [if_pos hlt]
        exact ⟨hlt, rfl, rfl⟩
      · rw [if_neg hlt] at hdiff
        exact absurd rfl hdiff
  have hids : (mergeMarkers e n).map (·.marker_id)
      = e.map (·.marker_id)
        ++ ((n.filter (fun mkr => mkr.marker_id ∉ e.map (·.marker_id))).map (·.marker_id)) := by
    rw [hclosed, List.map_append, List.map_map, List.map_map]
    congr 1
    exact List.map_congr_left fun x _ => by
      show (updOne n x).marker_id = x.marker_id
      unfold updOne
      cases hf : n.find? (fun m => m.marker_id = x.marker_id) with
      | none => rfl
      | some mkr => exact updateExisting_marker_id x mkr
  have hnodup : ((mergeMarkers e n).map (·.marker_id)).Nodup := by
    rw [hids]
    refine List.Nodup.append he ?_ ?_
    · exact ((List.filter_sublist n).map (·.marker_id)).nodup hn
    · intro a hae haf
      obtain ⟨x, hx, rfl⟩ := List.mem_map.mp haf
      have := List.of_mem_filter hx
      simp only [decide_eq_true_eq] at this
      exact this hae
  refine ⟨hclosed, hupd, hnodup, ?_⟩
  -- idempotence
  have hsub : ∀ mkr ∈ n, mkr.marker_id ∈ (mergeMarkers e n).map (·.marker_id) := by
    intro mkr hm
    rw [hids]
    by_cases hin : mkr.marker_id ∈ e.map (·.marker_id)
    · exact List.mem_append_left _ hin
    · refine List.mem_append_right _ ?_
      exact List.mem_map_of_mem _ (List.mem_filter_of_mem hm (by simpa using hin))
  have hfix : ∀ x ∈ mergeMarkers e n, updOne n x = x := by
    intro x hx
    rw [hclosed] at hx
    rcases List.mem_append.mp hx with hxe | hxt
    · obtain ⟨x0, hx0, rfl⟩ := List.mem_map.mp hxe
      exact updOne_idem n x0
    · obtain ⟨mkr0, hmk, rfl⟩ := List.mem_map.mp hxt
      have hmem : mkr0 ∈ n := List.mem_of_mem_filter hmk
      unfold updOne
      simp only [tagContextual_marker_id]
      rw [find?_self_of_nodup n mkr0 hmem hn]
      dsimp only
      unfold updateExisting
      rw [if_neg (by simp [tagContextual])]
  calc mergeMarkers (mergeMarkers e n) n
      = (mergeMarkers e n).map (updOne n)
        ++ (n.filter (fun mkr =>
            mkr.marker_id ∉ (mergeMarkers e n).map (·.marker_id))).map tagContextual := by
        rw [mergeMarkers_closed]
        congr 1
        exact List.map_congr_left fun x hx =>
          foldUpd_eq_updOne _ n x (List.mem_map_of_mem _ hx) hn
    _ = (mergeMarkers e n).map (fun x => x) ++ [].map tagContextual := by
        congr 1
        · exact List.map_congr_left hfix
        · congr 1
          rw [List.filter_eq_nil_iff]
          intro mkr hm
          simpa using hsub mkr hm
    _ = mergeMarkers e n := by simp

/-- The existing Phase-1 entry of the merge witness. -/
def mergeWitExisting : List DetectedEntry :=
  [{ marker_id := "S_A", confidence := some (1/2) }]

/-- The Phase-3 entries of the merge witness: a higher-confidence
re-detection of `S_A` plus a new composite `C_AB`. -/
def mergeWitNew : List DetectedEntry :=
  [{ marker_id := "S_A", confidence := some (9/10) },
   { marker_id := "C_AB", confidence := some (3/5) }]

/-- Witness for `claim_C2` at concrete one/two-entry lists. -/
theorem claim_C2_witness :
    ((mergeWitExisting.map (·.marker_id)).Nodup
      ∧ (mergeWitNew.map (·.marker_id)).Nodup)
    ∧ (mergeMarkers mergeWitExisting mergeWitNew
        = mergeWitExisting.map (updOne mergeWitNew)
          ++ (mergeWitNew.filter (fun mkr =>
              mkr.marker_id ∉ mergeWitExisting.map (·.marker_id))).map tagContextual
      ∧ (∀ x ∈ mergeWitExisting, (updOne mergeWitNew x).confidence ≠ x.confidence →
          ∃ mkr ∈ mergeWitNew, mkr.marker_id = x.marker_id
            ∧ x.confidence.getD (1/2) < mkr.confidence.getD (1/2)
            ∧ (updOne mergeWitNew x).confidence = some (mkr.confidence.getD (1/2))
            ∧ (updOne mergeWitNew x).contextual_boost
                = some (mkr.confidence.getD (1/2) - x.confidence.getD (1/2)))
      ∧ ((mergeMarkers mergeWitExisting mergeWitNew).map (·.marker_id)).Nodup
      ∧ mergeMarkers (mergeMarkers mergeWitExisting mergeWitNew) mergeWitNew
          = mergeMarkers mergeWitExisting mergeWitNew) :=
  ⟨⟨by simp [mergeWitExisting], by simp [mergeWitNew]⟩,
   claim_C2 mergeWitExisting mergeWitNew (by simp [mergeWitExisting])
     (by simp [mergeWitNew])⟩

/-! ## Orchestration: the three-phase `analyze` pipeline
    From `OrchestrationService.analyze` and its phase methods
    (backend/services/orchestration_service.py).  The marker service
    and NLP enricher are external dependencies, abstracted as
    functions. -/

/-- `str(e)` for the recorded per-phase error strings. -/
def PyErr.msg : PyErr → String
  | .attributeError => "AttributeError"
  | .typeError => "TypeError"
  | .nameError => "NameError"
  | .valueError => "ValueError"
  | .zeroDivisionError => "ZeroDivisionError"
  | .keyError => "KeyError"

/-- The external collaborators of the orchestration service:
the NLP enricher (`is_available` / `enrich`) and the marker service
(`initial_scan` / `contextual_rescan`). -/
structure OrchDeps where
  nlpAvailable : Bool
  enrich : AnalysisContext → Except PyErr AnalysisContext
  initialScan : String → String → Except PyErr (List DetectedEntry)
  contextualRescan : AnalysisContext → Except PyErr (List DetectedEntry)

/-- The result envelope of `_prepare_results` / `_prepare_error_results`
(restricted to the fields under study; per-phase metadata and timings
are diagnostics). -/
structure Envelope where
  status : String
  markers : List DetectedEntry
  marker_count : ℕ
  nlp_enriched : Bool
  deriving Repr

/-- `_phase1_initial_scan`: the phase-entry log line interpolates
`context.request_id` BEFORE the phase's `try` block — an attribute the
context model does not declare — so the phase raises before scanning;
the `try` body that follows records the scan result or a phase-1
error. -/
def phase1InitialScan (d : OrchDeps) (ctx : AnalysisContext) :
    Except PyErr AnalysisContext := do
  let _ ← ctx.getRequestId
  match d.initialScan ctx.text ctx.schema_id with
  | .ok ms =>
    .ok { ctx with detected_markers := ms, phase1_marker_count := some ms.length }
  | .error e =>
    .ok { ctx with phase1_error := some e.msg, detected_markers := [] }

/-- `_phase2_nlp_enrichment`: the same pre-`try` `request_id` log line;
the `try` body sets `nlp_skipped` when the enricher is unavailable,
else enriches in place, recording a phase-2 error on exception. -/
def phase2NlpEnrichment (d : OrchDeps) (ctx : AnalysisContext) :
    Except PyErr AnalysisContext := do
  let _ ← ctx.getRequestId
  if ¬ d.nlpAvailable then
    .ok { ctx with nlp_skipped := true }
  else
    match d.enrich ctx with
    | .ok ctx' => .ok ctx'
    | .error e => .ok { ctx with phase2_error := some e.msg }

/-- `_phase3_contextual_rescan`: the same pre-`try` `request_id` log
line; the `try` body returns immediately when `nlp_skipped` is set,
else rescans and merges, recording a phase-3 error on exception. -/
def phase3ContextualRescan (d : OrchDeps) (ctx : AnalysisContext) :
    Except PyErr AnalysisContext := do
  let _ ← ctx.getRequestId
  if ctx.nlp_skipped then .ok ctx
  else
    match d.contextualRescan ctx with
    | .ok ms =>
      .ok { ctx with
            detected_markers := mergeMarkers ctx.detected_markers ms,
            phase3_markers_added :=
              some (((mergeMarkers ctx.detected_markers ms).length : ℤ)
                - (ctx.detected_markers.length : ℤ)) }
    | .error e => .ok { ctx with phase3_error := some e.msg }

/-- `_prepare_results`: the result dict's first entry reads
`context.request_id`, which raises on this context model; the rest
builds the success envelope. -/
def prepareResults (ctx : AnalysisContext) : Except PyErr Envelope := do
  let _ ← ctx.getRequestId
  .ok { status := "success", markers := ctx.detected_markers,
        marker_count := ctx.detected_markers.length,
        nlp_enriched := ¬ ctx.nlp_skipped }

/-- `_prepare_error_results`: its dict likewise begins with
`context.request_id`, so it raises as well. -/
def prepareErrorResults (ctx : AnalysisContext) (_error : String) :
    Except PyErr Envelope := do
  let _ ← ctx.getRequestId
  .ok { status := "error", markers := [], marker_count := 0, nlp_enriched := false }

/-- `OrchestrationService.analyze`: run the three phases and result
assembly under the outer `try`; on an exception, build the error
envelope in the `except` handler — and when THAT raises too, the
`finally` block's `results['performance_metrics']` reads the unbound
local `results`, so the caller sees a `NameError`. -/
def analyze (d : OrchDeps) (text schema_id : String) (session_id : Option String) :
    Except PyErr Envelope :=
  let ctx0 : AnalysisContext :=
    { text := text, schema_id := schema_id, session_id := session_id }
  let run : Except PyErr Envelope := do
    let c1 ← phase1InitialScan d ctx0
    let c2 ← phase2NlpEnrichment d c1
    let c3 ← phase3ContextualRescan d c2
    prepareResults c3
  match run with
  | .ok env => .ok env
  | .error e =>
    match prepareErrorResults ctx0 e.msg with
    | .ok env => .ok env
    | .error _ => .error .nameError

/-- C3.  Every `analyze` call — in particular every call with the NLP
enricher unavailable — raises instead of returning the claimed
degraded success envelope: `AnalysisContext` declares no `request_id`
field, so the phase-1 log line raises `AttributeError` before any
scanning, the error-envelope builder raises again on the same
attribute, and the `finally` block then raises `NameError` on the
unbound `results`.  No `status='success'` / `nlp_enriched=false`
envelope is ever produced. -/
theorem claim_C3_bug (d : OrchDeps) (text schema_id : String)
    (session_id : Option String) :
    analyze d text schema_id session_id = .error .nameError := rfl

end MECore
